import Mathlib

/-!
Verification of the QBRAgent repository's authenticated API client
(`src/agentic_app/api_client.py`) and tool-calling loop
(`src/agentic_app/agent.py`) against its natural-language specification.

The Python code is shallowly embedded: pure helpers become Lean functions,
external effects (the HTTP transport, the login endpoint, `time.monotonic`,
`json.loads`, the LLM) become explicit oracle parameters, and raised
exceptions become `Except` errors carrying the exact message strings the
source formats.
-/

namespace Agentic

/-- JSON values, the data interchanged with the remote API and with tool
callables.  Mirrors the Python `json` value universe (objects are ordered
key/value lists; Python dict keys are unique, lookup takes the first hit). -/
inductive Json where
  | null
  | bool (b : Bool)
  | num (n : Int)
  | str (s : String)
  | arr (items : List Json)
  | obj (members : List (String × Json))

/-- Python `d.get(key)` on a JSON object represented as a key/value list. -/
def lookup : List (String × Json) → String → Option Json
  | [], _ => none
  | (k, v) :: rest, key => if k = key then some v else lookup rest key

theorem lookup_sizeOf_lt {kvs : List (String × Json)} {key : String} {v : Json}
    (h : lookup kvs key = some v) : sizeOf v < sizeOf kvs := by
  induction kvs with
  | nil => simp [lookup] at h
  | cons hd tl ih =>
    obtain ⟨k, w⟩ := hd
    simp only [lookup] at h
    split at h
    · cases h
      simp only [List.cons.sizeOf_spec, Prod.mk.sizeOf_spec]
      omega
    · have := ih h
      simp only [List.cons.sizeOf_spec]
      omega

/-- The fixed ordered candidate token field names probed by
`SymmonsAPIClient._extract_token` (api_client.py line 183). -/
def candidateKeys : List String :=
  ["token", "accessToken", "jwt", "idToken", "bearer", "key_0"]

/-- The top-level probing loop of `_extract_token`: for each candidate key in
order, return the value if it is a non-empty string
(`isinstance(value, str) and value`). -/
def probeKeys : List String → List (String × Json) → Option String
  | [], _ => none
  | k :: rest, kvs =>
    match lookup kvs k with
    | some (.str v) => if v = "" then probeKeys rest kvs else some v
    | _ => probeKeys rest kvs

/-- Embedding of `SymmonsAPIClient._extract_token` (api_client.py lines 181-190): probe the
candidate keys at the top level; if none yields a non-empty string and the
payload has a dict-valued "model" member, recurse into it; otherwise `None`. -/
def extract_token (kvs : List (String × Json)) : Option String :=
  match probeKeys candidateKeys kvs with
  | some v => some v
  | none =>
    match h : lookup kvs "model" with
    | some (.obj inner) => extract_token inner
    | _ => none
termination_by sizeOf kvs
decreasing_by
  have := lookup_sizeOf_lt h
  simp only [Json.obj.sizeOf_spec] at this
  omega

mutual

/-- Model of `json.dumps` on the embedded JSON values (string escaping of exotic
characters is not modelled; no claim depends on the rendered text). -/
def Json.dumps : Json → String
  | .null => "null"
  | .bool true => "true"
  | .bool false => "false"
  | .num n => toString n
  | .str s => "\"" ++ s ++ "\""
  | .arr items => "[" ++ Json.dumpsArr items ++ "]"
  | .obj kvs => "\x7b" ++ Json.dumpsObj kvs ++ "\x7d"

def Json.dumpsArr : List Json → String
  | [] => ""
  | [j] => Json.dumps j
  | j :: rest => Json.dumps j ++ ", " ++ Json.dumpsArr rest

def Json.dumpsObj : List (String × Json) → String
  | [] => ""
  | [(k, v)] => "\"" ++ k ++ "\": " ++ Json.dumps v
  | (k, v) :: rest => "\"" ++ k ++ "\": " ++ Json.dumps v ++ ", " ++ Json.dumpsObj rest

end

/-- Python truthiness of the `_jwt : Optional[str]` field: `None` and the
empty string are falsy. -/
def truthy : Option String → Bool
  | none => false
  | some s => !(s == "")

/-- The mutable token state of a `SymmonsAPIClient` instance
(api_client.py lines 25-26), plus the process-environment mirror of
`SYM_API_JWT` that `_ensure_token` writes (line 148).  Time is the value of
`time.monotonic()`, modelled as a natural number. -/
structure ClientState where
  jwt : Option String
  acquiredAt : Nat
  envJwt : Option String
deriving Repr, DecidableEq

/-- Embedding of `SymmonsAPIClient._token_expired` (lines 151-154), evaluated at clock
reading `now`.  `time.monotonic()` is non-decreasing within a process, so the
truncated `Nat` subtraction agrees with the Python float subtraction. -/
def token_expired (ttl : Nat) (st : ClientState) (now : Nat) : Bool :=
  if truthy st.jwt = false then true else decide (now - st.acquiredAt > ttl)

/-- Observable external effects of the client: a POST to the login endpoint,
and an HTTP send of the request being served.  A forced login is the one
issued by `_ensure_token(force=True)`. -/
inductive Ev where
  | loginCall (force : Bool)
  | httpSend
deriving Repr, DecidableEq

/-- An HTTP response as the client consumes it: status code, body text,
the result of `resp.json()` (`none` models the `ValueError` on a body that
is not valid JSON), and the originating request's method and URL
(`resp.request.method` / `resp.request.url`). -/
structure Response where
  status : Nat
  text : String
  jsonBody : Option Json
  reqMethod : String
  reqUrl : String

/-- The message of the `SymmonsAPIError` raised by `_parse_json`
(api_client.py lines 177-179). -/
def invalidJsonMsg (method url : String) : String :=
  "Invalid JSON response from " ++ method ++ " " ++ url

/-- The message of the `SymmonsAPIError` raised by `_request` on a response
with status >= 400 (lines 137-139). -/
def statusErrMsg (method path : String) (status : Nat) (text : String) : String :=
  method ++ " " ++ path ++ " failed with " ++ toString status ++ ": " ++ text

/-- The message of the `SymmonsAPIError` raised by `_login` on a >= 400
login response (lines 165-167). -/
def loginFailMsg (status : Nat) (text : String) : String :=
  "Login failed with " ++ toString status ++ ": " ++ text

/-- Embedding of `SymmonsAPIClient._parse_json` (lines 172-179): return the decoded JSON
body, or raise a `SymmonsAPIError` naming the request when the body is not
valid JSON. -/
def parse_json (resp : Response) : Except String Json :=
  match resp.jsonBody with
  | some j => .ok j
  | none => .error (invalidJsonMsg resp.reqMethod resp.reqUrl)

/-- Embedding of `SymmonsAPIClient._login` (lines 156-170), applied to the response of the
login POST.  On a >= 400 status it raises; otherwise it decodes the body and
returns `_extract_token(data)` - possibly `None`, with no error raised.
A non-object JSON body would make `payload.get` raise an `AttributeError`
in Python; that uncaught propagation is modelled as an error. -/
def login (resp : Response) : Except String (Option String) :=
  if resp.status ≥ 400 then .error (loginFailMsg resp.status resp.text)
  else
    match parse_json resp with
    | .error e => .error e
    | .ok (.obj kvs) => .ok (extract_token kvs)
    | .ok _ => .error "AttributeError"

/-- Embedding of `SymmonsAPIClient._ensure_token` (lines 142-149).  `now` is the value
`time.monotonic()` yields during this call and `loginResp` the response the
login POST would receive if issued.  Returns the token (with the updated
state) or propagates the login failure, together with the external events
performed. -/
def ensure_token (ttl : Nat) (st : ClientState) (force : Bool) (now : Nat)
    (loginResp : Response) :
    Except String (Option String × ClientState) × List Ev :=
  if force = false ∧ truthy st.jwt = true ∧ token_expired ttl st now = false then
    (.ok (st.jwt, st), [])
  else
    match login loginResp with
    | .error e => (.error e, [Ev.loginCall force])
    | .ok tok =>
      let st1 : ClientState :=
        { jwt := tok, acquiredAt := now,
          envJwt := if truthy tok then tok else st.envJwt }
      (.ok (tok, st1), [Ev.loginCall force])

/-- Embedding of `SymmonsAPIClient._request` (lines 103-140).  The transport is an oracle:
`r1` is the response to the first send and `r2` the response to the retried
send (consumed only if the retry happens); `now1`/`login1` serve the initial
`_ensure_token()` and `now2`/`login2` the forced one.  Authorization-header
assembly (line 114) has no observable consequence beyond the send itself and
is not separately modelled. -/
def request (ttl : Nat) (st : ClientState) (method path : String)
    (now1 : Nat) (login1 : Response) (now2 : Nat) (login2 : Response)
    (r1 r2 : Response) (retry : Bool) :
    Except String (Response × ClientState) × List Ev :=
  match ensure_token ttl st false now1 login1 with
  | (.error e, evs1) => (.error e, evs1)
  | (.ok (_token, st1), evs1) =>
    if r1.status = 401 ∧ retry = true then
      let st2 : ClientState := { st1 with jwt := none, acquiredAt := 0 }
      match ensure_token ttl st2 true now2 login2 with
      | (.error e, evs2) => (.error e, evs1 ++ [Ev.httpSend] ++ evs2)
      | (.ok (_t2, st3), evs2) =>
        if r2.status ≥ 400 then
          (.error (statusErrMsg method path r2.status r2.text),
           evs1 ++ [Ev.httpSend] ++ evs2 ++ [Ev.httpSend])
        else
          (.ok (r2, st3), evs1 ++ [Ev.httpSend] ++ evs2 ++ [Ev.httpSend])
    else
      if r1.status ≥ 400 then
        (.error (statusErrMsg method path r1.status r1.text), evs1 ++ [Ev.httpSend])
      else
        (.ok (r1, st1), evs1 ++ [Ev.httpSend])

/-- Embedding of `SymmonsAPIClient._get` / `_post` (lines 91-101): `_request` followed by
`_parse_json` on the returned response. -/
def clientOp (ttl : Nat) (st : ClientState) (method path : String)
    (now1 : Nat) (login1 : Response) (now2 : Nat) (login2 : Response)
    (r1 r2 : Response) :
    Except String (Json × ClientState) × List Ev :=
  match request ttl st method path now1 login1 now2 login2 r1 r2 true with
  | (.error e, evs) => (.error e, evs)
  | (.ok (resp, st1), evs) =>
    (match parse_json resp with
     | .error e => .error e
     | .ok j => .ok (j, st1), evs)

/-- Python `str.strip()`: drop whitespace from both ends. -/
def pyStrip (s : String) : String :=
  ⟨((s.data.dropWhile Char.isWhitespace).reverse.dropWhile
      Char.isWhitespace).reverse⟩

/-- The token-cache part of `SymmonsAPIClient.__post_init__` (lines 28-34):
if `SYM_API_JWT` is set to a truthy (non-empty) string, adopt its stripped
value as the current token (empty after stripping becomes `None`) and stamp
the acquisition time with the construction-time clock reading. -/
def post_init (envJwt : Option String) (now : Nat) : ClientState :=
  match envJwt with
  | some cached =>
    if cached = "" then { jwt := none, acquiredAt := 0, envJwt := envJwt }
    else
      { jwt := if pyStrip cached = "" then none else some (pyStrip cached),
        acquiredAt := now, envJwt := envJwt }
  | none => { jwt := none, acquiredAt := 0, envJwt := none }

/-- A tool-call `arguments` value as the model emits it: either a
string-encoded JSON document or a direct mapping.  (Python would push any
other value through `json.loads(str(arguments))`, agent.py line 166; no
spec claim exercises that branch.) -/
inductive Arg where
  | str (s : String)
  | obj (kvs : List (String × Json))

/-- Python truthiness of an `arguments` value (`or` chains in agent.py
lines 114 and 162): the empty string and the empty mapping are falsy. -/
def argTruthy : Arg → Bool
  | .str s => !(s == "")
  | .obj kvs => !kvs.isEmpty

/-- The `function` block of a tool call: `{"name": ..., "arguments": ...}`. -/
structure FunctionBlock where
  name : Option String
  arguments : Option Arg

/-- A raw model-emitted tool call in the dict shape handled by
`_extract_tool_calls` (agent.py lines 193-211).  `function = none` also
covers the falsy empty dict (Python `call.get("function") or \x7b...\x7d`).
The attribute-based object shape (lines 212-237) is normalized identically
and is not separately modelled. -/
structure RawCall where
  id : Option String
  type : Option String
  function : Option FunctionBlock
  name : Option String
  arguments : Option Arg

/-- A normalized tool call as produced by `_extract_tool_calls`: the keys
`id`, `type`, `function` (lines 198-208). -/
structure NormCall where
  id : Option String
  type : Option String
  function : FunctionBlock

/-- Normalization of one raw call (lines 198-208): keep `id` and `type`, and
use the `function` block when truthy, else rebuild it from the top-level
`name`/`arguments` keys. -/
def normCall (c : RawCall) : NormCall :=
  { id := c.id, type := c.type,
    function :=
      match c.function with
      | some f => f
      | none => { name := c.name, arguments := c.arguments } }

/-- The iteration of `_extract_tool_calls` over the flattened sources with
the running `seen_ids` set: a call whose id is truthy and already seen is
skipped; otherwise it is normalized and appended, and a truthy id is added
to the seen set. -/
def extractFrom : List RawCall → List String → List NormCall
  | [], _ => []
  | c :: rest, seen =>
    match c.id with
    | some i =>
      if i ≠ "" ∧ i ∈ seen then extractFrom rest seen
      else normCall c :: extractFrom rest (if i ≠ "" then i :: seen else seen)
    | none => normCall c :: extractFrom rest seen

/-- One entry of an AIMessage's list-shaped `content`
(`part.get("type")`, `part.get("text", "")`). -/
structure ContentPart where
  type : Option String
  text : String

/-- An AIMessage's `content`: a plain string or a list of typed parts. -/
inductive MsgContent where
  | str (s : String)
  | parts (ps : List ContentPart)

/-- A model response (`AIMessage`): its content, its `tool_calls` attribute,
and the legacy `additional_kwargs["tool_calls"]` list (absent = `[]`). -/
structure AIMsg where
  content : MsgContent
  toolCalls : List RawCall
  legacyToolCalls : List RawCall

/-- The raw calls `_extract_tool_calls` walks: `message.tool_calls` when
truthy, then the legacy list when truthy (agent.py lines 182-188), with one
`seen_ids` set threaded across both. -/
def emittedCalls (m : AIMsg) : List RawCall :=
  (if m.toolCalls.isEmpty then [] else m.toolCalls) ++
    (if m.legacyToolCalls.isEmpty then [] else m.legacyToolCalls)

/-- Embedding of `SymmonsAgent._extract_tool_calls` (agent.py lines 178-238). -/
def extract_tool_calls (m : AIMsg) : List NormCall :=
  extractFrom (emittedCalls m) []

/-- Embedding of `SymmonsAgent._normalize_response_content` (lines 240-251): a string
content is stripped; a list content joins the non-empty texts of its
`type == "text"` parts with newlines, then strips. -/
def normalize_response_content (m : AIMsg) : String :=
  match m.content with
  | .str s => pyStrip s
  | .parts ps =>
    pyStrip (String.intercalate "\n"
      (((ps.filter fun p => p.type == some "text").map ContentPart.text).filter
        fun t => !(t == "")))

/-- A conversation message (`SystemMessage` / `HumanMessage` / `AIMessage` /
`ToolMessage`); the tool variant carries the `tool_call_id` and tool name it
was constructed with (agent.py lines 131-137). -/
inductive Msg where
  | system (content : String)
  | user (content : String)
  | assistant (m : AIMsg)
  | tool (content : String) (toolCallId : Option String) (name : String)

/-- A registered tool callable: keyword arguments in, JSON-serializable
result out; `.error` models an exception raised by the callable. -/
def ToolFn : Type := List (String × Json) → Except String Json

/-- Registry lookup (`name in self.tool_registry` / `self.tool_registry[name]`). -/
def lookupTool : List (String × ToolFn) → String → Option ToolFn
  | [], _ => none
  | (k, f) :: rest, name => if k = name then some f else lookupTool rest name

/-- The structured error payload for an unregistered tool name
(agent.py line 155). -/
def unknownToolErr (name : String) : Json :=
  Json.obj [("error", Json.str ("Unknown tool \x27" ++ name ++ "\x27"))]

/-- The structured error payload for arguments that fail JSON decoding
(line 168); `exc` is the decoder's message. -/
def invalidArgsErr (name exc : String) : Json :=
  Json.obj [("error", Json.str ("Invalid arguments for " ++ name ++ ": " ++ exc))]

/-- The structured error payload for an exception raised by the tool
callable (line 173). -/
def toolExcErr (exc : String) : Json :=
  Json.obj [("error", Json.str exc)]

/-- Embedding of `SymmonsAgent._dispatch_tool_call` (agent.py lines 149-176).  `jsonLoads`
is the `json.loads` oracle restricted to object results (a non-object result
would fail at `**`-unpacking inside the second `try` and be downgraded the
same way; no claim exercises it).  Returns `(parsed_args, result_obj,
serialized)`; `SymmonsToolset.serialize` is `json.dumps` (tools.py
line 296). -/
def dispatch_tool_call (registry : List (String × ToolFn))
    (jsonLoads : String → Except String (List (String × Json)))
    (name : String) (arguments : Option Arg) :
    List (String × Json) × Json × String :=
  match lookupTool registry name with
  | none =>
    let e := unknownToolErr name
    ([], e, Json.dumps e)
  | some f =>
    match
      (match arguments with
       | none => Except.ok []
       | some (.str s) => jsonLoads (if s == "" then "\x7b\x7d" else s)
       | some (.obj kvs) => Except.ok kvs) with
    | .error exc =>
      let e := invalidArgsErr name exc
      ([], e, Json.dumps e)
    | .ok args =>
      match f args with
      | .error exc =>
        let e := toolExcErr exc
        (args, e, Json.dumps e)
      | .ok result => (args, result, Json.dumps result)

/-- Embedding of `ToolCallRecord` (agent.py lines 32-45). -/
structure ToolCallRecord where
  tool_name : String
  arguments : List (String × Json)
  endpoint : Option String
  result : Json

/-- Embedding of `AgentRunResult` (lines 48-59); `messages` is the conversation the run
accumulated (the source serializes it field-by-field on return, a projection
that no claim inspects). -/
structure AgentRunResult where
  reply : String
  tool_calls : List ToolCallRecord
  messages : List Msg

/-- The agent's fixed collaborators: the tool registry, the `json.loads`
oracle, `SymmonsToolset.describe_endpoint` (presentation-only glue, kept
abstract), the turn budget `max_turns`, and the LLM oracle giving the
`AIMessage` answering the k-th invocation of `llm_with_tools.invoke`. -/
structure AgentCfg where
  registry : List (String × ToolFn)
  jsonLoads : String → Except String (List (String × Json))
  describeEndpoint : String → List (String × Json) → Option String
  maxTurns : Nat
  model : Nat → AIMsg

/-- Observable agent events: one per `llm_with_tools.invoke` and one per
dispatched tool call. -/
inductive AgentEv where
  | modelInvoke
  | toolDispatch (name : String)
deriving Repr, DecidableEq

/-- The effective tool name of a normalized call as the run loop resolves it
(agent.py lines 112-116): `function.name` when truthy, else skip (the
normalized dict has no top-level `name` key, so the `or call.get("name")`
fallback is always `None`). -/
def resolvedName (c : NormCall) : Option String :=
  match c.function.name with
  | some n => if n = "" then none else some n
  | none => none

/-- The effective `arguments` the run loop passes to dispatch (line 114):
`function.arguments` when truthy, else `None`. -/
def resolvedArgs (c : NormCall) : Option Arg :=
  match c.function.arguments with
  | some a => if argTruthy a then some a else none
  | none => none

/-- The inner `for call in tool_calls` body of `SymmonsAgent.run`
(agent.py lines 111-137): skip calls without a truthy name; dispatch the
rest in order, appending a `ToolCallRecord` to the log and a `ToolMessage`
carrying the call's id to the conversation.  Also returns the dispatch
events in order. -/
def processCalls (cfg : AgentCfg) : List NormCall → List Msg →
    List ToolCallRecord → List Msg × List ToolCallRecord × List AgentEv
  | [], msgs, log => (msgs, log, [])
  | c :: rest, msgs, log =>
    match resolvedName c with
    | none => processCalls cfg rest msgs log
    | some name =>
      let out := dispatch_tool_call cfg.registry cfg.jsonLoads name (resolvedArgs c)
      let record : ToolCallRecord :=
        { tool_name := name, arguments := out.1,
          endpoint := cfg.describeEndpoint name out.1, result := out.2.1 }
      let step :=
        processCalls cfg rest (msgs ++ [Msg.tool out.2.2 c.id name]) (log ++ [record])
      (step.1, step.2.1, AgentEv.toolDispatch name :: step.2.2)

/-- The `for _ in range(self.max_turns)` loop of `SymmonsAgent.run`
(agent.py lines 106-147): invoke the model, append its message; if it
emitted tool calls, dispatch them all and continue; otherwise return the
normalized text if non-empty; after the budget is exhausted raise
`RuntimeError`.  `k` counts model invocations already made. -/
def runLoop (cfg : AgentCfg) (k : Nat) (msgs : List Msg)
    (log : List ToolCallRecord) (fuel : Nat) :
    Except String AgentRunResult × List AgentEv :=
  match fuel with
  | 0 => (.error "Agent reached max turns without producing a reply.", [])
  | fuel' + 1 =>
    let ai := cfg.model k
    let msgs1 := msgs ++ [Msg.assistant ai]
    match extract_tool_calls ai with
    | c :: cs =>
      let step := processCalls cfg (c :: cs) msgs1 log
      let cont := runLoop cfg (k + 1) step.1 step.2.1 fuel'
      (cont.1, AgentEv.modelInvoke :: step.2.2 ++ cont.2)
    | [] =>
      let text := normalize_response_content ai
      if text = "" then
        let cont := runLoop cfg (k + 1) msgs1 log fuel'
        (cont.1, AgentEv.modelInvoke :: cont.2)
      else
        (.ok { reply := text, tool_calls := log, messages := msgs1 },
         [AgentEv.modelInvoke])

/-- Embedding of `SymmonsAgent.run` without prior conversation (agent.py lines 94-147):
seed the conversation with the system prompt and the user prompt, then run
the bounded turn loop. -/
def run (cfg : AgentCfg) (systemPrompt userPrompt : String) :
    Except String AgentRunResult × List AgentEv :=
  runLoop cfg 0 [Msg.system systemPrompt, Msg.user userPrompt] [] cfg.maxTurns

/-- The shape of the protocol-layer failure message raised by `_parse_json`:
the text begins with "Invalid JSON response from ". -/
def jsonErrShape (e : String) : Prop :=
  ∃ t : List Char, e.data = "Invalid JSON response from ".data ++ t

/-- A 404 response used as a concrete witness input. -/
def rsp404 : Response :=
  Response.mk 404 "gone" none "GET" "u"

/-- A 200 response whose body is not valid JSON, used as a witness input. -/
def rspNoJson : Response :=
  Response.mk 200 "ok" none "GET" "u"

/-- A successful login response carrying token "T", used as a witness input. -/
def rspLoginT : Response :=
  Response.mk 200 "" (some (Json.obj [("token", Json.str "T")])) "POST" "u"

/-- A client state already holding token "T", used as a witness input. -/
def stT : ClientState :=
  ClientState.mk (some "T") 0 none

/-- The conversation invariant of claim C9: every tool-role message carries
the id of a tool call issued by some assistant message of the same
conversation. -/
def toolMsgOk (msgs : List Msg) : Prop :=
  ∀ content cid nm, Msg.tool content cid nm ∈ msgs →
    ∃ ai, Msg.assistant ai ∈ msgs ∧
      cid ∈ (extract_tool_calls ai).map NormCall.id

/-- A raw tool call with id "a" invoking tool "t", used as a witness input. -/
def rawCallT : RawCall :=
  RawCall.mk (some "a") (some "function") (some (FunctionBlock.mk (some "t") none))
    none none

/-- A raw tool call with id "x" invoking tool "t1", used as a witness input. -/
def rawCallT1 : RawCall :=
  RawCall.mk (some "x") (some "function")
    (some (FunctionBlock.mk (some "t1") none)) none none

/-- A raw tool call that duplicates id "x" with tool "t2", used as a witness
input. -/
def rawCallT2 : RawCall :=
  RawCall.mk (some "x") (some "function")
    (some (FunctionBlock.mk (some "t2") none)) none none

/-- A model response that only issues tool call `rawCallT`. -/
def aiTool : AIMsg :=
  AIMsg.mk (MsgContent.str "") [rawCallT] []

/-- A model response issuing two tool calls that share id "x". -/
def aiDup : AIMsg :=
  AIMsg.mk (MsgContent.str "") [rawCallT1, rawCallT2] []

/-- A model response that is a plain text reply "done". -/
def aiDone : AIMsg :=
  AIMsg.mk (MsgContent.str "done") [] []

/-- A `json.loads` oracle that rejects every document, used as a witness
input. -/
def jlFail : String → Except String (List (String × Json)) :=
  fun _ => Except.error "Expecting value"

/-- A tool callable that raises, used as a witness input. -/
def toolErrFn : ToolFn :=
  fun _ => Except.error "boom"

/-- A one-entry registry holding the raising tool, used as a witness input. -/
def regW : List (String × ToolFn) :=
  [("bad_tool", toolErrFn)]

/-- An agent whose model always asks for tool "t" (unknown in its empty
registry) and never replies with text; turn budget 2. -/
def cfgAlwaysTool : AgentCfg :=
  AgentCfg.mk [] jlFail (fun _ _ => none) 2 (fun _ => aiTool)

/-- An agent whose model asks for the unknown tool "t" on its first turn and
replies "done" on the next; turn budget 6. -/
def cfgToolThenDone : AgentCfg :=
  AgentCfg.mk [] jlFail (fun _ _ => none) 6
    (fun k => if k = 0 then aiTool else aiDone)

/-- An agent whose model issues the duplicated-id pair on every turn. -/
def cfgDup : AgentCfg :=
  AgentCfg.mk [] jlFail (fun _ _ => none) 2 (fun _ => aiDup)

/-- The result `cfgToolThenDone` produces for prompts "s"/"u": one unknown
tool turn, then the text reply. -/
def runOkResult : AgentRunResult :=
  AgentRunResult.mk "done"
    [ToolCallRecord.mk "t" [] none (unknownToolErr "t")]
    [Msg.system "s", Msg.user "u", Msg.assistant aiTool,
     Msg.tool (Json.dumps (unknownToolErr "t")) (some "a") "t",
     Msg.assistant aiDone]

/-! ## Theorems -/

/-- C2, counterexample.  A login response whose JSON object offers no
candidate token field makes `_extract_token` yield `None`, yet `_login`
returns successfully with no token instead of failing: the claimed
`AuthenticationError` does not exist in `api_client.py` (`_login` is typed
`Optional[str]` and `_request` simply omits the Authorization header when
the token is `None`). -/
theorem c2_counterexample :
    extract_token [] = none ∧
    login { status := 200, text := "", jsonBody := some (Json.obj []),
            reqMethod := "POST", reqUrl := "http://api/api/v2/login" } =
      Except.ok none := by
  constructor
  · simp [extract_token, probeKeys, lookup, candidateKeys]
  · simp [login, parse_json, extract_token, probeKeys, lookup, candidateKeys]

/-- C2, amended.  Extraction yields "X" on `\x7b"model": \x7b"jwt": "X"\x7d\x7d`
and "Y" on `\x7b"token": "Y"\x7d`; it probes the ordered candidate keys at the
top level ("token" first) and falls back to recursing into a dict-valued
"model" member only when every top-level probe fails, yielding `none` when
the fallback is unavailable too; and when extraction yields `none`, `_login`
on a well-formed 2xx response returns `None` successfully - no
AuthenticationError is raised. -/
theorem c2_extraction (kvs inner : List (String × Json)) (s : String) :
    extract_token [("model", Json.obj [("jwt", Json.str "X")])] = some "X" ∧
    extract_token [("token", Json.str "Y")] = some "Y" ∧
    (lookup kvs "token" = some (Json.str s) → s ≠ "" → extract_token kvs = some s) ∧
    (probeKeys candidateKeys kvs = none →
      lookup kvs "model" = some (Json.obj inner) →
      extract_token kvs = extract_token inner) ∧
    (probeKeys candidateKeys kvs = none → lookup kvs "model" = none →
      extract_token kvs = none) ∧
    (∀ resp : Response, resp.status < 400 → resp.jsonBody = some (Json.obj kvs) →
      extract_token kvs = none → login resp = Except.ok none) := by
  refine ⟨?_, ?_, ?_, ?_, ?_, ?_⟩
  · simp [extract_token, probeKeys, lookup, candidateKeys]
  · simp [extract_token, probeKeys, lookup, candidateKeys]
  · intro h hs
    rw [extract_token]
    simp [candidateKeys, probeKeys, h, hs]
  · intro hp hm
    rw [extract_token, hp, hm]
  · intro hp hm
    rw [extract_token, hp, hm]
  · intro resp hst hbody hext
    have : ¬ resp.status ≥ 400 := by omega
    simp [login, parse_json, hbody, hext, this]

/-- C2, witness for the amended theorem at concrete inputs. -/
theorem c2_extraction_witness :
    extract_token [("token", Json.str "Y")] = some "Y" ∧
    login { status := 200, text := "", jsonBody := some (Json.obj []),
            reqMethod := "POST", reqUrl := "http://api/api/v2/login" } =
      Except.ok none := by
  refine ⟨(c2_extraction [] [] "Y").2.1, ?_⟩
  refine (c2_extraction [] [] "Y").2.2.2.2.2 _ (by decide) rfl ?_
  simp [extract_token, probeKeys, lookup, candidateKeys]

/-- Helper: the cached fast path of `_ensure_token` - an unforced call
holding a truthy token within `ttl` of its acquisition returns the token
unchanged with no login POST. -/
theorem ensure_token_cached (ttl now0 now : Nat) (s : String) (st1 : ClientState)
    (loginR : Response) (hj : st1.jwt = some s) (hs : s ≠ "")
    (ha : st1.acquiredAt = now0) (hfresh : now - now0 ≤ ttl) :
    ensure_token ttl st1 false now loginR = (.ok (some s, st1), []) := by
  have hnotexp : token_expired ttl st1 now = false := by
    simp [token_expired, truthy, hj, hs, ha]
    omega
  simp [ensure_token, truthy, hj, hs, hnotexp]

/-- Helper: the relogin path of `_ensure_token` - an unforced call holding a
token whose age exceeds `ttl` performs a login and stores the fresh token
and timestamp. -/
theorem ensure_token_relogin (ttl now0 now : Nat) (s : String)
    (st1 : ClientState) (loginR : Response) (tok2 : Option String)
    (hj : st1.jwt = some s) (ha : st1.acquiredAt = now0)
    (hold : now - now0 > ttl) (hl : login loginR = .ok tok2) :
    ∃ st2, ensure_token ttl st1 false now loginR =
        (.ok (tok2, st2), [Ev.loginCall false]) ∧
      st2.jwt = tok2 ∧ st2.acquiredAt = now := by
  have hexp : token_expired ttl st1 now = true := by
    simp only [token_expired, truthy, hj, ha]
    by_cases hs : s = "" <;> simp [hs] <;> omega
  refine ⟨{ jwt := tok2, acquiredAt := now,
            envJwt := if truthy tok2 then tok2 else st1.envJwt },
    ?_, rfl, rfl⟩
  simp [ensure_token, hexp, hl]

/-- C3.  After `_ensure_token` succeeds with a (non-empty) token acquired at
clock reading `now0`, any later unforced call whose clock reading is within
`ttl` of `now0` returns the same token and the same state with no login
POST; an unforced call whose reading exceeds `now0 + ttl` performs a login
and stores the new token with the new acquisition timestamp. -/
theorem c3_token_cache (ttl now0 : Nat) (s : String) (st1 : ClientState)
    (hj : st1.jwt = some s) (hs : s ≠ "") (ha : st1.acquiredAt = now0) :
    (∀ now loginR, now - now0 ≤ ttl →
      ensure_token ttl st1 false now loginR = (.ok (some s, st1), [])) ∧
    (∀ now loginR tok2, now - now0 > ttl → login loginR = .ok tok2 →
      ∃ st2, ensure_token ttl st1 false now loginR =
          (.ok (tok2, st2), [Ev.loginCall false]) ∧
        st2.jwt = tok2 ∧ st2.acquiredAt = now) := by
  constructor
  · intro now loginR hfresh
    exact ensure_token_cached ttl now0 now s st1 loginR hj hs ha hfresh
  · intro now loginR tok2 hold hl
    exact ensure_token_relogin ttl now0 now s st1 loginR tok2 hj ha hold hl

/-- C3, witness: ttl 3300, token acquired at 10; a call at 3310 is served
from the cache, a call at 3311 + 10 = 3321... (strictly more than ttl after
acquisition, namely at 3311 + now0) triggers a login. -/
theorem c3_token_cache_witness :
    (∀ now loginR, now - 10 ≤ 3300 →
      ensure_token 3300 { jwt := some "T", acquiredAt := 10, envJwt := none }
          false now loginR =
        (.ok (some "T", { jwt := some "T", acquiredAt := 10, envJwt := none }), [])) ∧
    (∀ now loginR tok2, now - 10 > 3300 → login loginR = .ok tok2 →
      ∃ st2, ensure_token 3300 { jwt := some "T", acquiredAt := 10, envJwt := none }
          false now loginR = (.ok (tok2, st2), [Ev.loginCall false]) ∧
        st2.jwt = tok2 ∧ st2.acquiredAt = now) :=
  c3_token_cache 3300 10 "T" { jwt := some "T", acquiredAt := 10, envJwt := none }
    rfl (by decide) rfl

/-- Helper: `_ensure_token(force=True)` always performs the login POST and
stores its result. -/
theorem ensure_token_force (ttl : Nat) (st : ClientState) (now : Nat)
    (lr : Response) (tok : Option String) (hl : login lr = .ok tok) :
    ensure_token ttl st true now lr =
      (.ok (tok, { jwt := tok, acquiredAt := now,
                   envJwt := if truthy tok then tok else st.envJwt }),
       [Ev.loginCall true]) := by
  simp [ensure_token, hl]

/-- Helper: an unforced `_ensure_token` whose login POST would succeed always
succeeds, performing either no event (cache hit) or one unforced login. -/
theorem ensure_token_unforced_ok (ttl : Nat) (st : ClientState) (now : Nat)
    (lr : Response) (tok : Option String) (hl : login lr = .ok tok) :
    ∃ t1 st1 evs1, ensure_token ttl st false now lr = (.ok (t1, st1), evs1) ∧
      (evs1 = [] ∨ evs1 = [Ev.loginCall false]) := by
  by_cases hguard : truthy st.jwt = true ∧ token_expired ttl st now = false
  · exact ⟨st.jwt, st, [],
      by simp [ensure_token, hguard.1, hguard.2], Or.inl rfl⟩
  · have hneg : ¬ (false = false ∧ truthy st.jwt = true ∧
        token_expired ttl st now = false) := by
      simpa using hguard
    refine ⟨tok,
      ClientState.mk tok now (if truthy tok then tok else st.envJwt),
      [Ev.loginCall false], ?_, Or.inr rfl⟩
    simp only [ensure_token, hl]
    rw [if_neg (by simpa using hguard)]

/-- C1.  When the first response to a request is HTTP 401, the client
performs exactly one forced token refresh (one `loginCall true` event) and
exactly one retry (two `httpSend` events in total, the retry coming
immediately after the forced login); and when the retried request is also
answered 401, no further retry happens and the operation fails with the
fatal `SymmonsAPIError` carrying method, path, status and body text. -/
theorem c1_retry_once (ttl : Nat) (st : ClientState) (method path : String)
    (now1 now2 : Nat) (login1 login2 r1 r2 : Response)
    (tok1 tok2 : Option String)
    (hl1 : login login1 = .ok tok1) (hl2 : login login2 = .ok tok2)
    (h401 : r1.status = 401) :
    (request ttl st method path now1 login1 now2 login2 r1 r2 true).2.count
        (Ev.loginCall true) = 1 ∧
    (request ttl st method path now1 login1 now2 login2 r1 r2 true).2.count
        Ev.httpSend = 2 ∧
    (∃ evs1, (evs1 = [] ∨ evs1 = [Ev.loginCall false]) ∧
      (request ttl st method path now1 login1 now2 login2 r1 r2 true).2 =
        evs1 ++ [Ev.httpSend, Ev.loginCall true, Ev.httpSend]) ∧
    (r2.status = 401 →
      (request ttl st method path now1 login1 now2 login2 r1 r2 true).1 =
        .error (statusErrMsg method path r2.status r2.text)) := by
  obtain ⟨t1, st1, evs1, he1, hevs1⟩ :=
    ensure_token_unforced_ok ttl st now1 login1 tok1 hl1
  have hforce := ensure_token_force ttl
    { st1 with jwt := none, acquiredAt := 0 } now2 login2 tok2 hl2
  have hsnd :
      (request ttl st method path now1 login1 now2 login2 r1 r2 true).2 =
        evs1 ++ [Ev.httpSend, Ev.loginCall true, Ev.httpSend] := by
    simp only [request, he1, h401, hforce, and_self, if_true]
    split <;> simp
  refine ⟨?_, ?_, ⟨evs1, hevs1, hsnd⟩, ?_⟩
  · rw [hsnd]
    rcases hevs1 with h | h <;> simp [h]
  · rw [hsnd]
    rcases hevs1 with h | h <;> simp [h]
  · intro h4
    have : r2.status ≥ 400 := by omega
    simp only [request, he1, h401, hforce, and_self, if_true, this]

/-- C1, witness: a cold client (no cached token) whose first send is
answered 401 and whose retry is also answered 401. -/
theorem c1_retry_once_witness :
    (request 3300 { jwt := none, acquiredAt := 0, envJwt := none } "GET" "/p"
        0 { status := 200, text := "", jsonBody := some (Json.obj
              [("token", Json.str "T")]), reqMethod := "POST", reqUrl := "u" }
        1 { status := 200, text := "", jsonBody := some (Json.obj
              [("token", Json.str "T2")]), reqMethod := "POST", reqUrl := "u" }
        { status := 401, text := "denied", jsonBody := none,
          reqMethod := "GET", reqUrl := "u" }
        { status := 401, text := "denied", jsonBody := none,
          reqMethod := "GET", reqUrl := "u" } true).2.count
      (Ev.loginCall true) = 1 ∧
    (request 3300 { jwt := none, acquiredAt := 0, envJwt := none } "GET" "/p"
        0 { status := 200, text := "", jsonBody := some (Json.obj
              [("token", Json.str "T")]), reqMethod := "POST", reqUrl := "u" }
        1 { status := 200, text := "", jsonBody := some (Json.obj
              [("token", Json.str "T2")]), reqMethod := "POST", reqUrl := "u" }
        { status := 401, text := "denied", jsonBody := none,
          reqMethod := "GET", reqUrl := "u" }
        { status := 401, text := "denied", jsonBody := none,
          reqMethod := "GET", reqUrl := "u" } true).2.count Ev.httpSend = 2 ∧
    (∃ evs1, (evs1 = [] ∨ evs1 = [Ev.loginCall false]) ∧
      (request 3300 { jwt := none, acquiredAt := 0, envJwt := none } "GET" "/p"
        0 { status := 200, text := "", jsonBody := some (Json.obj
              [("token", Json.str "T")]), reqMethod := "POST", reqUrl := "u" }
        1 { status := 200, text := "", jsonBody := some (Json.obj
              [("token", Json.str "T2")]), reqMethod := "POST", reqUrl := "u" }
        { status := 401, text := "denied", jsonBody := none,
          reqMethod := "GET", reqUrl := "u" }
        { status := 401, text := "denied", jsonBody := none,
          reqMethod := "GET", reqUrl := "u" } true).2 =
        evs1 ++ [Ev.httpSend, Ev.loginCall true, Ev.httpSend]) ∧
    (({ status := 401, text := "denied", jsonBody := none,
        reqMethod := "GET", reqUrl := "u" } : Response).status = 401 →
      (request 3300 { jwt := none, acquiredAt := 0, envJwt := none } "GET" "/p"
        0 { status := 200, text := "", jsonBody := some (Json.obj
              [("token", Json.str "T")]), reqMethod := "POST", reqUrl := "u" }
        1 { status := 200, text := "", jsonBody := some (Json.obj
              [("token", Json.str "T2")]), reqMethod := "POST", reqUrl := "u" }
        { status := 401, text := "denied", jsonBody := none,
          reqMethod := "GET", reqUrl := "u" }
        { status := 401, text := "denied", jsonBody := none,
          reqMethod := "GET", reqUrl := "u" } true).1 =
        .error (statusErrMsg "GET" "/p" 401 "denied")) := by
  refine c1_retry_once 3300 _ "GET" "/p" 0 1 _ _ _ _ (some "T") (some "T2")
    ?_ ?_ rfl
  · simp [login, parse_json, extract_token, probeKeys, lookup, candidateKeys]
  · simp [login, parse_json, extract_token, probeKeys, lookup, candidateKeys]

/-- C10.  When the `SYM_API_JWT` environment variable holds a string that is
non-empty after stripping, `__post_init__` adopts the stripped value as the
current token and stamps the acquisition time with the construction-time
clock reading; an unforced `_ensure_token` within `ttl` of construction then
returns that token with no login POST. -/
theorem c10_env_token (v : String) (now ttl now' : Nat) (loginR : Response)
    (hv : pyStrip v ≠ "") (hfresh : now' - now ≤ ttl) :
    (post_init (some v) now).jwt = some (pyStrip v) ∧
    (post_init (some v) now).acquiredAt = now ∧
    ensure_token ttl (post_init (some v) now) false now' loginR =
      (.ok (some (pyStrip v), post_init (some v) now), []) := by
  have hv0 : v ≠ "" := by
    intro h
    rw [h] at hv
    exact hv rfl
  have hpost : post_init (some v) now =
      { jwt := some (pyStrip v), acquiredAt := now, envJwt := some v } := by
    simp [post_init, hv0, hv]
  refine ⟨by rw [hpost], by rw [hpost], ?_⟩
  rw [hpost]
  exact ensure_token_cached ttl now now' (pyStrip v) _ loginR rfl hv rfl hfresh

/-- C10, witness: the cached value " tok " is adopted as "tok", acquired at
construction time 5, and an `ensure_token` at time 7 returns it without a
login. -/
theorem c10_env_token_witness :
    (post_init (some " tok ") 5).jwt = some (pyStrip " tok ") ∧
    (post_init (some " tok ") 5).acquiredAt = 5 ∧
    ensure_token 3300 (post_init (some " tok ") 5) false 7
        { status := 200, text := "", jsonBody := none, reqMethod := "POST",
          reqUrl := "u" } =
      (.ok (some (pyStrip " tok "), post_init (some " tok ") 5), []) :=
  c10_env_token " tok " 5 3300 7 _ (by decide) (by decide)

/-- C8.  A non-JSON body and a >= 400 status fail through the same exception
class (`SymmonsAPIError`) but with disjoint message shapes, so callers can
tell the two layers apart: every `_parse_json` message is in `jsonErrShape`
while no `_request` status message is (for the upper-cased methods the
client sends); and on a `_get`/`_post` operation a >= 400 first response
(other than the retried 401) surfaces exactly the status message while a
2xx response whose body is not JSON surfaces exactly the parse message. -/
theorem c8_error_layers (ttl : Nat) (st : ClientState) (method path : String)
    (now1 now2 : Nat) (login1 login2 r1 r2 : Response) (tok1 : Option String)
    (hm : ∀ c ∈ method.data, c.toUpper = c)
    (hl1 : login login1 = .ok tok1) :
    (∀ status text, ¬ jsonErrShape (statusErrMsg method path status text)) ∧
    (∀ m u, jsonErrShape (invalidJsonMsg m u)) ∧
    (r1.status ≥ 400 → r1.status ≠ 401 →
      (clientOp ttl st method path now1 login1 now2 login2 r1 r2).1 =
        .error (statusErrMsg method path r1.status r1.text)) ∧
    (r1.status < 400 → r1.jsonBody = none →
      (clientOp ttl st method path now1 login1 now2 login2 r1 r2).1 =
        .error (invalidJsonMsg r1.reqMethod r1.reqUrl)) := by
  obtain ⟨t1, st1, evs1, he1, hevs1⟩ :=
    ensure_token_unforced_ok ttl st now1 login1 tok1 hl1
  refine ⟨?_, ?_, ?_, ?_⟩
  · intro status text hshape
    obtain ⟨t, ht⟩ := hshape
    simp only [statusErrMsg, String.data_append] at ht
    rcases hmd : method.data with _ | ⟨c1, _ | ⟨c2, tl⟩⟩ <;> rw [hmd] at ht <;>
      simp only [List.nil_append, List.cons_append, List.singleton_append,
        List.append_assoc] at ht
    · injection ht with hh _
      exact absurd hh (by decide)
    · injection ht with hh ht2
      injection ht2 with hh2 _
      exact absurd hh2 (by decide)
    · injection ht with hh ht2
      injection ht2 with hh2 _
      have hc2 : c2 ∈ method.data := by
        rw [hmd]
        exact List.mem_cons_of_mem _ (List.mem_cons_self _ _)
      have hup := hm c2 hc2
      rw [hh2] at hup
      exact absurd hup (by decide)
  · intro m u
    refine ⟨(m ++ " " ++ u).data, ?_⟩
    simp [invalidJsonMsg, String.data_append]
  · intro h400 h401
    have hne : ¬ (r1.status = 401 ∧ True) := by simp [h401]
    have hreq : request ttl st method path now1 login1 now2 login2 r1 r2 true =
        (.error (statusErrMsg method path r1.status r1.text),
         evs1 ++ [Ev.httpSend]) := by
      simp only [request, he1]
      rw [if_neg hne, if_pos h400]
    simp only [clientOp, hreq]
  · intro hlt hbody
    have hne : ¬ (r1.status = 401 ∧ True) := by
      simp only [and_true]
      omega
    have hge : ¬ r1.status ≥ 400 := by omega
    have hreq : request ttl st method path now1 login1 now2 login2 r1 r2 true =
        (.ok (r1, st1), evs1 ++ [Ev.httpSend]) := by
      simp only [request, he1]
      rw [if_neg hne, if_neg hge]
    simp only [clientOp, hreq, parse_json, hbody]

/-- C8, witness at method "GET" with a 404 first response (exercising the
status-failure conclusion; the non-JSON conclusion holds vacuously there)
and the two message-shape conclusions instantiated. -/
theorem c8_error_layers_witness :
    (∀ status text, ¬ jsonErrShape (statusErrMsg "GET" "/p" status text)) ∧
    (∀ m u, jsonErrShape (invalidJsonMsg m u)) ∧
    (rsp404.status ≥ 400 → rsp404.status ≠ 401 →
      (clientOp 3300 stT "GET" "/p" 1 rspLoginT 2 rspLoginT rsp404
          rspNoJson).1 =
        .error (statusErrMsg "GET" "/p" rsp404.status rsp404.text)) ∧
    (rsp404.status < 400 → rsp404.jsonBody = none →
      (clientOp 3300 stT "GET" "/p" 1 rspLoginT 2 rspLoginT rsp404
          rspNoJson).1 =
        .error (invalidJsonMsg rsp404.reqMethod rsp404.reqUrl)) :=
  c8_error_layers 3300 stT "GET" "/p" 1 2 rspLoginT rspLoginT rsp404 rspNoJson
    (some "T") (by decide)
    (by simp [rspLoginT, login, parse_json, extract_token, probeKeys, lookup,
      candidateKeys])

/-- Helper: tool dispatching never invokes the model - `processCalls`
contributes no `modelInvoke` event. -/
theorem processCalls_no_invoke (cfg : AgentCfg) (calls : List NormCall)
    (msgs : List Msg) (log : List ToolCallRecord) :
    (processCalls cfg calls msgs log).2.2.count AgentEv.modelInvoke = 0 := by
  induction calls generalizing msgs log with
  | nil => rfl
  | cons c rest ih =>
    cases hr : resolvedName c with
    | none => simpa [processCalls, hr] using ih msgs log
    | some name => simp [processCalls, hr, List.count_cons, ih]

/-- Helper: with a model that emits tool calls on every turn, the run loop
consumes its whole fuel, invoking the model once per unit of fuel, and ends
in the max-turns `RuntimeError`. -/
theorem runLoop_budget (cfg : AgentCfg)
    (hcalls : ∀ k, extract_tool_calls (cfg.model k) ≠ []) :
    ∀ fuel k msgs log,
      (runLoop cfg k msgs log fuel).1 =
        .error "Agent reached max turns without producing a reply." ∧
      (runLoop cfg k msgs log fuel).2.count AgentEv.modelInvoke = fuel := by
  intro fuel
  induction fuel with
  | zero => intro k msgs log; exact ⟨rfl, rfl⟩
  | succ n ih =>
    intro k msgs log
    rcases hx : extract_tool_calls (cfg.model k) with _ | ⟨c, cs⟩
    · exact absurd hx (hcalls k)
    · constructor
      · simp only [runLoop, hx]
        exact (ih (k + 1) _ _).1
      · simp only [runLoop, hx]
        simp [List.count_cons, List.count_append, processCalls_no_invoke,
          (ih (k + 1) _ _).2, Nat.add_comm]

/-- C4.  A model that emits tool calls on every turn (and hence never a
non-empty text reply) makes the run perform exactly `max_turns` model
invocations and then fail with the "Agent reached max turns without
producing a reply." `RuntimeError`, which is raised to the caller with no
further invocation. -/
theorem c4_turn_budget (cfg : AgentCfg) (sp up : String)
    (hcalls : ∀ k, extract_tool_calls (cfg.model k) ≠ [])
    (_htext : ∀ k, normalize_response_content (cfg.model k) = "") :
    (run cfg sp up).1 =
      .error "Agent reached max turns without producing a reply." ∧
    (run cfg sp up).2.count AgentEv.modelInvoke = cfg.maxTurns :=
  runLoop_budget cfg hcalls cfg.maxTurns 0 [Msg.system sp, Msg.user up] []

/-- C4, witness: the always-tool-calling agent with turn budget 2 fails
after exactly 2 model invocations. -/
theorem c4_turn_budget_witness :
    (run cfgAlwaysTool "s" "u").1 =
      .error "Agent reached max turns without producing a reply." ∧
    (run cfgAlwaysTool "s" "u").2.count AgentEv.modelInvoke =
      cfgAlwaysTool.maxTurns :=
  c4_turn_budget cfgAlwaysTool "s" "u"
    (fun _ => List.cons_ne_nil _ _) (fun _ => rfl)

/-- C5.  A model-issued call naming an unregistered tool is dispatched to a
structured error payload (recorded and serialized, never raised), the error
is appended to the conversation as a tool message carrying the call's id,
and the loop proceeds to the next model turn instead of aborting: the run's
outcome is exactly the outcome of the continued loop. -/
theorem c5_unknown_tool (cfg : AgentCfg) (k : Nat) (msgs : List Msg)
    (log : List ToolCallRecord) (fuel : Nat) (c : NormCall) (name : String)
    (hcalls : extract_tool_calls (cfg.model k) = [c])
    (hname : c.function.name = some name) (hne : name ≠ "")
    (hreg : lookupTool cfg.registry name = none) :
    dispatch_tool_call cfg.registry cfg.jsonLoads name (resolvedArgs c) =
      ([], unknownToolErr name, Json.dumps (unknownToolErr name)) ∧
    runLoop cfg k msgs log (fuel + 1) =
      ((runLoop cfg (k + 1)
          ((msgs ++ [Msg.assistant (cfg.model k)]) ++
            [Msg.tool (Json.dumps (unknownToolErr name)) c.id name])
          (log ++ [ToolCallRecord.mk name []
            (cfg.describeEndpoint name []) (unknownToolErr name)]) fuel).1,
       AgentEv.modelInvoke :: AgentEv.toolDispatch name ::
         (runLoop cfg (k + 1)
           ((msgs ++ [Msg.assistant (cfg.model k)]) ++
             [Msg.tool (Json.dumps (unknownToolErr name)) c.id name])
           (log ++ [ToolCallRecord.mk name []
             (cfg.describeEndpoint name []) (unknownToolErr name)]) fuel).2) := by
  have hdisp : dispatch_tool_call cfg.registry cfg.jsonLoads name
      (resolvedArgs c) =
      ([], unknownToolErr name, Json.dumps (unknownToolErr name)) := by
    simp [dispatch_tool_call, hreg]
  have hres : resolvedName c = some name := by
    simp [resolvedName, hname, hne]
  refine ⟨hdisp, ?_⟩
  simp only [runLoop, hcalls, processCalls, hres, hdisp]
  rfl

/-- C5, witness: the empty-registry agent receiving a call for tool "t"
continues into its second turn (where the budget then expires). -/
theorem c5_unknown_tool_witness :
    dispatch_tool_call cfgAlwaysTool.registry cfgAlwaysTool.jsonLoads "t"
      (resolvedArgs (normCall rawCallT)) =
      ([], unknownToolErr "t", Json.dumps (unknownToolErr "t")) ∧
    runLoop cfgAlwaysTool 0 [] [] 2 =
      ((runLoop cfgAlwaysTool 1
          (([] ++ [Msg.assistant (cfgAlwaysTool.model 0)]) ++
            [Msg.tool (Json.dumps (unknownToolErr "t"))
              (normCall rawCallT).id "t"])
          ([] ++ [ToolCallRecord.mk "t" []
            (cfgAlwaysTool.describeEndpoint "t" []) (unknownToolErr "t")]) 1).1,
       AgentEv.modelInvoke :: AgentEv.toolDispatch "t" ::
         (runLoop cfgAlwaysTool 1
           (([] ++ [Msg.assistant (cfgAlwaysTool.model 0)]) ++
             [Msg.tool (Json.dumps (unknownToolErr "t"))
               (normCall rawCallT).id "t"])
           ([] ++ [ToolCallRecord.mk "t" []
             (cfgAlwaysTool.describeEndpoint "t" [])
             (unknownToolErr "t")]) 1).2) :=
  c5_unknown_tool cfgAlwaysTool 0 [] [] 1 (normCall rawCallT) "t"
    rfl rfl (by decide) rfl

/-- C6.  For a registered tool, string arguments that fail JSON decoding are
downgraded to a structured error result whose message embeds the offending
tool name (never an uncaught exception), and an exception raised by the
tool callable itself is downgraded to a structured error result the same
way. -/
theorem c6_bad_args_downgraded (registry : List (String × ToolFn))
    (jl : String → Except String (List (String × Json))) (name : String)
    (f : ToolFn) (hreg : lookupTool registry name = some f) :
    (∀ s e, s ≠ "" → jl s = .error e →
      dispatch_tool_call registry jl name (some (Arg.str s)) =
        ([], invalidArgsErr name e, Json.dumps (invalidArgsErr name e)) ∧
      ∃ p q, "Invalid arguments for " ++ name ++ ": " ++ e = p ++ name ++ q) ∧
    (∀ kvs exc, f kvs = .error exc →
      dispatch_tool_call registry jl name (some (Arg.obj kvs)) =
        (kvs, toolExcErr exc, Json.dumps (toolExcErr exc))) := by
  constructor
  · intro s e hs hj
    have hbe : (s == "") = false := by
      simp [hs]
    constructor
    · simp [dispatch_tool_call, hreg, hbe, hj]
    · exact ⟨"Invalid arguments for ", ": " ++ e,
        String.append_assoc ("Invalid arguments for " ++ name) ": " e⟩
  · intro kvs exc hf
    simp [dispatch_tool_call, hreg, hf]

/-- C6, witness: the registry holding "bad_tool", the always-failing JSON
decoder on the malformed document "\x7bnot json", and the raising callable. -/
theorem c6_bad_args_downgraded_witness :
    (dispatch_tool_call regW jlFail "bad_tool"
        (some (Arg.str "\x7bnot json")) =
      ([], invalidArgsErr "bad_tool" "Expecting value",
       Json.dumps (invalidArgsErr "bad_tool" "Expecting value")) ∧
     ∃ p q, "Invalid arguments for " ++ "bad_tool" ++ ": " ++
        "Expecting value" = p ++ "bad_tool" ++ q) ∧
    dispatch_tool_call regW jlFail "bad_tool" (some (Arg.obj [])) =
      ([], toolExcErr "boom", Json.dumps (toolExcErr "boom")) :=
  ⟨(c6_bad_args_downgraded regW jlFail "bad_tool" toolErrFn rfl).1
      "\x7bnot json" "Expecting value" (by decide) rfl,
   (c6_bad_args_downgraded regW jlFail "bad_tool" toolErrFn rfl).2
      [] "boom" rfl⟩

/-- Helper: normalization keeps a call's id. -/
theorem normCall_id (c : RawCall) : (normCall c).id = c.id := rfl

/-- Helper: `_extract_tool_calls` preserves emission order - its output is a
sublist of the normalized raw calls. -/
theorem extractFrom_sublist (l : List RawCall) (seen : List String) :
    List.Sublist (extractFrom l seen) (l.map normCall) := by
  induction l generalizing seen with
  | nil => simp [extractFrom]
  | cons c rest ih =>
    cases hc : c.id with
    | none =>
      simp only [extractFrom, hc, List.map_cons]
      exact List.Sublist.cons₂ _ (ih _)
    | some i =>
      simp only [extractFrom, hc, List.map_cons]
      split
      · exact List.Sublist.cons _ (ih _)
      · exact List.Sublist.cons₂ _ (ih _)

/-- Helper: for a truthy id not yet seen, the first extracted call carrying
it is the normalization of the first raw call carrying it. -/
theorem extractFrom_find_first (l : List RawCall) (i : String) (hi : i ≠ "") :
    ∀ seen, i ∉ seen →
      ((extractFrom l seen).find? fun nc => nc.id == some i) =
        ((l.find? fun d => d.id == some i).map normCall) := by
  induction l with
  | nil => intro seen _; rfl
  | cons c rest ih =>
    intro seen hs
    cases hc : c.id with
    | none =>
      have hp : ((normCall c).id == some i) = false := by
        simp [normCall_id, hc]
      have hp' : (c.id == some i) = false := by simp [hc]
      simp only [extractFrom, hc, List.find?_cons, hp, hp']
      exact ih seen hs
    | some j =>
      by_cases hji : j = i
      · subst hji
        have hnotseen : ¬ (j ≠ "" ∧ j ∈ seen) := fun hmem => hs hmem.2
        have hp : ((normCall c).id == some j) = true := by
          simp [normCall_id, hc]
        have hp' : (c.id == some j) = true := by simp [hc]
        simp only [extractFrom, hc, if_neg hnotseen, List.find?_cons, hp, hp']
        simp
      · have hp : ((normCall c).id == some i) = false := by
          simp [normCall_id, hc, hji]
        have hp' : (c.id == some i) = false := by simp [hc, hji]
        simp only [extractFrom, hc]
        split
        · simp only [List.find?_cons, hp']
          exact ih seen hs
        · simp only [List.find?_cons, hp, hp']
          refine ih _ ?_
          split
          · intro hmem
            rcases List.mem_cons.mp hmem with h | h
            · exact hji h.symm
            · exact hs h
          · exact hs

/-- Helper: a truthy id occurs at most once among the extracted calls
(duplicates are dropped, and an id already seen is never re-admitted). -/
theorem extractFrom_countP (l : List RawCall) (i : String) (hi : i ≠ "") :
    ∀ seen,
      ((extractFrom l seen).countP fun nc => nc.id == some i) ≤
        if i ∈ seen then 0 else 1 := by
  induction l with
  | nil =>
    intro seen
    simp [extractFrom, List.countP_nil]
  | cons c rest ih =>
    intro seen
    cases hc : c.id with
    | none =>
      have hp : ((normCall c).id == some i) = false := by
        simp [normCall_id, hc]
      simp only [extractFrom, hc, List.countP_cons, hp, Bool.false_eq_true,
        if_false, Nat.add_zero]
      exact ih seen
    | some j =>
      simp only [extractFrom, hc]
      split
      · exact ih seen
      · next hkeep =>
        by_cases hji : j = i
        · subst hji
          have hp : ((normCall c).id == some j) = true := by
            simp [normCall_id, hc]
          have hnotin : j ∉ seen := fun hmem => hkeep ⟨hi, hmem⟩
          have hseen : (if j ≠ "" then j :: seen else seen) = j :: seen := by
            simp [hi]
          rw [hseen]
          simp only [List.countP_cons, hp, if_true, if_neg hnotin]
          have htail := ih (j :: seen)
          rw [if_pos (List.mem_cons_self _ _)] at htail
          omega
        · have hp : ((normCall c).id == some i) = false := by
            simp [normCall_id, hc, hji]
          simp only [List.countP_cons, hp, Bool.false_eq_true, if_false,
            Nat.add_zero]
          have htail := ih (if j ≠ "" then j :: seen else seen)
          have hmemiff : (i ∈ (if j ≠ "" then j :: seen else seen)) ↔ i ∈ seen := by
            split
            · constructor
              · intro hmem
                rcases List.mem_cons.mp hmem with h | h
                · exact absurd h.symm hji
                · exact h
              · exact fun h => List.mem_cons_of_mem _ h
            · exact Iff.rfl
          by_cases hin : i ∈ seen
          · rw [if_pos hin]
            rw [if_pos (hmemiff.mpr hin)] at htail
            omega
          · rw [if_neg hin]
            rw [if_neg (fun h => hin (hmemiff.mp h))] at htail
            omega

/-- Helper: the dispatch events of one turn are exactly the resolved tool
names of the turn's calls, in order. -/
theorem processCalls_events (cfg : AgentCfg) (calls : List NormCall)
    (msgs : List Msg) (log : List ToolCallRecord) :
    (processCalls cfg calls msgs log).2.2 =
      calls.filterMap fun c => (resolvedName c).map AgentEv.toolDispatch := by
  induction calls generalizing msgs log with
  | nil => rfl
  | cons c rest ih =>
    cases hr : resolvedName c with
    | none => simp [processCalls, hr, List.filterMap_cons, ih]
    | some name => simp [processCalls, hr, List.filterMap_cons, ih]

/-- Helper: a run-loop trace is empty (fuel exhausted) or starts with a
model invocation. -/
theorem runLoop_head (cfg : AgentCfg) (k : Nat) (msgs : List Msg)
    (log : List ToolCallRecord) (fuel : Nat) :
    (runLoop cfg k msgs log fuel).2.head? = none ∨
    (runLoop cfg k msgs log fuel).2.head? = some AgentEv.modelInvoke := by
  cases fuel with
  | zero => exact Or.inl rfl
  | succ n =>
    refine Or.inr ?_
    rcases hx : extract_tool_calls (cfg.model k) with _ | ⟨c, cs⟩ <;>
      simp only [runLoop, hx]
    · split
      · rfl
      · rfl
    · rfl

/-- C7.  Within one turn whose message yields tool calls, the run performs
the model invocation, then dispatches every extracted call (in extraction
order, one dispatch event per resolved call) before any further event, and
the continuation's first event - if any - is the next model invocation;
extraction preserves the model's emission order (sublist), resolves a
duplicated truthy id to the first raw occurrence, and keeps at most one
call per truthy id. -/
theorem c7_turn_order_dedup (cfg : AgentCfg) (k : Nat) (msgs : List Msg)
    (log : List ToolCallRecord) (fuel : Nat) (c : NormCall)
    (cs : List NormCall) (m : AIMsg) (i : String)
    (hcalls : extract_tool_calls (cfg.model k) = c :: cs) (hi : i ≠ "") :
    runLoop cfg k msgs log (fuel + 1) =
      ((runLoop cfg (k + 1)
          (processCalls cfg (c :: cs)
            (msgs ++ [Msg.assistant (cfg.model k)]) log).1
          (processCalls cfg (c :: cs)
            (msgs ++ [Msg.assistant (cfg.model k)]) log).2.1 fuel).1,
       AgentEv.modelInvoke ::
         ((c :: cs).filterMap fun d =>
           (resolvedName d).map AgentEv.toolDispatch) ++
         (runLoop cfg (k + 1)
           (processCalls cfg (c :: cs)
             (msgs ++ [Msg.assistant (cfg.model k)]) log).1
           (processCalls cfg (c :: cs)
             (msgs ++ [Msg.assistant (cfg.model k)]) log).2.1 fuel).2) ∧
    ((runLoop cfg (k + 1)
        (processCalls cfg (c :: cs)
          (msgs ++ [Msg.assistant (cfg.model k)]) log).1
        (processCalls cfg (c :: cs)
          (msgs ++ [Msg.assistant (cfg.model k)]) log).2.1 fuel).2.head? =
        none ∨
      (runLoop cfg (k + 1)
        (processCalls cfg (c :: cs)
          (msgs ++ [Msg.assistant (cfg.model k)]) log).1
        (processCalls cfg (c :: cs)
          (msgs ++ [Msg.assistant (cfg.model k)]) log).2.1 fuel).2.head? =
        some AgentEv.modelInvoke) ∧
    List.Sublist (extract_tool_calls m) ((emittedCalls m).map normCall) ∧
    ((extract_tool_calls m).find? fun nc => nc.id == some i) =
      (((emittedCalls m).find? fun d => d.id == some i).map normCall) ∧
    ((extract_tool_calls m).countP fun nc => nc.id == some i) ≤ 1 := by
  refine ⟨?_, runLoop_head cfg (k + 1) _ _ fuel, extractFrom_sublist _ _,
    extractFrom_find_first _ i hi [] (by simp),
    by simpa using extractFrom_countP (emittedCalls m) i hi []⟩
  simp only [runLoop, hcalls]
  rw [processCalls_events]

/-- C7, witness: the agent receiving two calls that share id "x" extracts
only the first ("t1"), dispatches it between the two model invocations of
its 2-turn budget, and the find?/countP facts hold at id "x". -/
theorem c7_turn_order_dedup_witness :
    runLoop cfgDup 0 [] [] (1 + 1) =
      ((runLoop cfgDup (0 + 1)
          (processCalls cfgDup ([normCall rawCallT1])
            ([] ++ [Msg.assistant (cfgDup.model 0)]) []).1
          (processCalls cfgDup ([normCall rawCallT1])
            ([] ++ [Msg.assistant (cfgDup.model 0)]) []).2.1 1).1,
       AgentEv.modelInvoke ::
         (([normCall rawCallT1]).filterMap fun d =>
           (resolvedName d).map AgentEv.toolDispatch) ++
         (runLoop cfgDup (0 + 1)
           (processCalls cfgDup ([normCall rawCallT1])
             ([] ++ [Msg.assistant (cfgDup.model 0)]) []).1
           (processCalls cfgDup ([normCall rawCallT1])
             ([] ++ [Msg.assistant (cfgDup.model 0)]) []).2.1 1).2) ∧
    ((runLoop cfgDup (0 + 1)
        (processCalls cfgDup ([normCall rawCallT1])
          ([] ++ [Msg.assistant (cfgDup.model 0)]) []).1
        (processCalls cfgDup ([normCall rawCallT1])
          ([] ++ [Msg.assistant (cfgDup.model 0)]) []).2.1 1).2.head? =
        none ∨
      (runLoop cfgDup (0 + 1)
        (processCalls cfgDup ([normCall rawCallT1])
          ([] ++ [Msg.assistant (cfgDup.model 0)]) []).1
        (processCalls cfgDup ([normCall rawCallT1])
          ([] ++ [Msg.assistant (cfgDup.model 0)]) []).2.1 1).2.head? =
        some AgentEv.modelInvoke) ∧
    List.Sublist (extract_tool_calls aiDup)
      ((emittedCalls aiDup).map normCall) ∧
    ((extract_tool_calls aiDup).find? fun nc => nc.id == some "x") =
      (((emittedCalls aiDup).find? fun d => d.id == some "x").map normCall) ∧
    ((extract_tool_calls aiDup).countP fun nc => nc.id == some "x") ≤ 1 :=
  c7_turn_order_dedup cfgDup 0 [] [] 1 (normCall rawCallT1) [] aiDup "x"
    rfl (by decide)

/-- Helper: appending an assistant message preserves the tool-message
pairing invariant. -/
theorem toolMsgOk_append_assistant (msgs : List Msg) (ai : AIMsg)
    (h : toolMsgOk msgs) : toolMsgOk (msgs ++ [Msg.assistant ai]) := by
  intro content cid nm hmem
  rcases List.mem_append.mp hmem with hm | hm
  · obtain ⟨ai2, hai2, hcid⟩ := h content cid nm hm
    exact ⟨ai2, List.mem_append.mpr (Or.inl hai2), hcid⟩
  · rcases List.mem_singleton.mp hm with h2
    cases h2

/-- Helper: dispatching a turn's calls preserves the pairing invariant when
every dispatched call is one of the assistant's extracted calls. -/
theorem processCalls_toolMsgOk (cfg : AgentCfg) (ai : AIMsg) :
    ∀ (calls : List NormCall) (msgs : List Msg) (log : List ToolCallRecord),
      (∀ c ∈ calls, c.id ∈ (extract_tool_calls ai).map NormCall.id) →
      Msg.assistant ai ∈ msgs → toolMsgOk msgs →
      toolMsgOk (processCalls cfg calls msgs log).1 := by
  intro calls
  induction calls with
  | nil => intro msgs log _ _ h; exact h
  | cons c rest ih =>
    intro msgs log hsub hai h
    cases hr : resolvedName c with
    | none =>
      simp only [processCalls, hr]
      exact ih msgs log (fun d hd => hsub d (List.mem_cons_of_mem _ hd)) hai h
    | some name =>
      simp only [processCalls, hr]
      refine ih _ _ (fun d hd => hsub d (List.mem_cons_of_mem _ hd))
        (List.mem_append.mpr (Or.inl hai)) ?_
      intro content cid nm hmem
      rcases List.mem_append.mp hmem with hm | hm
      · obtain ⟨ai2, hai2, hcid⟩ := h content cid nm hm
        exact ⟨ai2, List.mem_append.mpr (Or.inl hai2), hcid⟩
      · rcases List.mem_singleton.mp hm with h2
        injection h2 with _ hcid _
        refine ⟨ai, List.mem_append.mpr (Or.inl hai), ?_⟩
        rw [hcid]
        exact hsub c (List.mem_cons_self _ _)

/-- Helper: the pairing invariant is maintained by the whole run loop and so
holds of the conversation a successful run returns. -/
theorem runLoop_toolMsgOk (cfg : AgentCfg) :
    ∀ (fuel : Nat) (k : Nat) (msgs : List Msg) (log : List ToolCallRecord)
      (res : AgentRunResult),
      toolMsgOk msgs →
      (runLoop cfg k msgs log fuel).1 = .ok res →
      toolMsgOk res.messages := by
  intro fuel
  induction fuel with
  | zero =>
    intro k msgs log res _ hok
    exact absurd hok (by simp [runLoop])
  | succ n ih =>
    intro k msgs log res h hok
    rcases hx : extract_tool_calls (cfg.model k) with _ | ⟨c, cs⟩
    · simp only [runLoop, hx] at hok
      by_cases ht : normalize_response_content (cfg.model k) = ""
      · rw [if_pos ht] at hok
        exact ih (k + 1) _ _ res
          (toolMsgOk_append_assistant msgs (cfg.model k) h) hok
      · rw [if_neg ht] at hok
        cases hok
        exact toolMsgOk_append_assistant msgs (cfg.model k) h
    · simp only [runLoop, hx] at hok
      refine ih (k + 1) _ _ res ?_ hok
      refine processCalls_toolMsgOk cfg (cfg.model k) (c :: cs) _ _
        ?_ (List.mem_append.mpr (Or.inr (List.mem_singleton.mpr rfl))) ?_
      · intro d hd
        rw [hx]
        exact List.mem_map_of_mem _ hd
      · exact toolMsgOk_append_assistant msgs (cfg.model k) h

/-- C9.  Every tool-role message in the conversation a successful run
returns carries the id of a call issued by an assistant message of that
conversation (the `ToolMessage` is constructed with
`tool_call_id=call.get("id")`), so call/response pairing is preserved, also
when one assistant turn issues several calls. -/
theorem c9_tool_msg_pairing (cfg : AgentCfg) (sp up : String)
    (res : AgentRunResult) (evs : List AgentEv)
    (hrun : run cfg sp up = (.ok res, evs)) :
    toolMsgOk res.messages := by
  have h0 : toolMsgOk [Msg.system sp, Msg.user up] := by
    intro content cid nm hmem
    rcases List.mem_cons.mp hmem with h2 | h2
    · cases h2
    · rcases List.mem_singleton.mp h2 with h3
      cases h3
  have h1 : (runLoop cfg 0 [Msg.system sp, Msg.user up] [] cfg.maxTurns).1 =
      .ok res := by
    have := congrArg Prod.fst hrun
    simpa [run] using this
  exact runLoop_toolMsgOk cfg cfg.maxTurns 0 _ [] res h0 h1

/-- C9, witness: the unknown-tool-then-text agent returns successfully and
its conversation satisfies the pairing invariant. -/
theorem c9_tool_msg_pairing_witness : toolMsgOk runOkResult.messages :=
  c9_tool_msg_pairing cfgToolThenDone "s" "u" runOkResult
    [AgentEv.modelInvoke, AgentEv.toolDispatch "t", AgentEv.modelInvoke] rfl

end Agentic
